import Mathlib

/-!
Verification development for the experiment-orchestration layer of mlexpy
(`mlexpy/experiment.py`).  The Python classes `ExperimentBase`,
`ClassifierExperimentBase` and `RegressionExperimentBase` are shallowly
embedded as Lean definitions: dynamically typed Python values become the
inductive `PyVal`, Python exceptions become the inductive `PyErr`, fallible
calls return `Except PyErr`, the mutable `result_dict` becomes an explicit
association list threaded through the metric loop, and the mutable numpy
`RandomState` becomes an explicitly threaded `Nat` state.

External collaborators (sklearn metric functions, numpy random state) are
modelled by executable Lean functions; each such model carries a doc comment
naming the external function it stands for.  The data-carrier types
`MLSetup`/`ExperimentSetup` live in `mlexpy/pipeline_utils.py`, which is not
part of the sources at hand, and are modelled from the specification.
Filesystem concerns (model directory resolution, joblib dump/load) and
plotting side effects are outside every property below and are not embedded;
the model-IO *strategy slots* themselves are embedded, since their
resolution logic is part of the constructor.
-/

/-- Python exception kinds raised or caught by the embedded code.  The
classifier metric loop catches exactly `ValueError`; every other kind
propagates. -/
inductive PyErr where
  | valueError
  | notImplementedError
  | typeError
  | indexError
  | attributeError
  deriving DecidableEq, Repr

/-- Dynamically typed Python values as they flow through the evaluation
code: `None`, numeric scalars, strings, 1-d integer arrays (hard label
predictions), 1-d float arrays (regression targets), and 2-d float arrays
(class-probability matrices).  Exact rationals stand in for Python floats. -/
inductive PyVal where
  | none
  | num (q : Rat)
  | str (s : String)
  | ints (xs : List Int)
  | rats (xs : List Rat)
  | mat (m : List (List Rat))
  deriving DecidableEq, Repr

/-- Python truthiness (`bool(x)`) for the value shapes above: `None`, zero
and empty sequences are falsy.  This is the test performed by
`if not self.baseline_value:` in both `evaluate_predictions` overrides. -/
def PyVal.truthy : PyVal → Bool
  | .none => false
  | .num q => q != 0
  | .str s => s != ""
  | .ints xs => !xs.isEmpty
  | .rats xs => !xs.isEmpty
  | .mat m => !m.isEmpty

/-- Coerce a Python value to a list of floats, as the sklearn regression
metrics do with their array arguments; non-numeric shapes are rejected. -/
def toFloats : PyVal → Option (List Rat)
  | .rats xs => some xs
  | .ints xs => some (xs.map (fun i => (i : Rat)))
  | _ => Option.none

/-- Result dictionaries (`result_dict` in the Python code): insertion-ordered
string-keyed maps, as Python dicts are. -/
abbrev ResultDict := List (String × PyVal)

/-- Python dict assignment `d[k] = v`: replace in place if the key exists,
otherwise append. -/
def dinsert (d : ResultDict) (k : String) (v : PyVal) : ResultDict :=
  match d with
  | [] => [(k, v)]
  | (k', v') :: rest => if k' = k then (k, v) :: rest else (k', v') :: dinsert rest k v

/-- Python dict read `d.get(k)`. -/
def dlookup (d : ResultDict) (k : String) : Option PyVal :=
  match d with
  | [] => Option.none
  | (k', v') :: rest => if k' = k then some v' else dlookup rest k

/-- Substring test on character lists, the semantics of Python's
`pat in s` for strings. -/
def hasSub (pat : List Char) : List Char → Bool
  | [] => pat.isEmpty
  | c :: cs => pat.isPrefixOf (c :: cs) || hasSub pat cs

/-- The test `"f1" in name` from the classifier metric loop. -/
def strHasF1 (s : String) : Bool := hasSub ['f', '1'] s.data

/-- Suffixes appended to an f1-like metric name, one per averaging mode. -/
def avgSuffixes : List String := ["_macro", "_micro", "_weighted"]

/-- Registered metric callable.  A Python metric is a single dynamically
typed callable; the two fields are its two call shapes as used by
`evaluate_predictions`: `call` is `metric(labels, values)` and `callAvg` is
`metric(labels, values, average=avg)`. -/
structure PyMetric where
  call : PyVal → PyVal → Except PyErr PyVal
  callAvg : PyVal → PyVal → String → Except PyErr PyVal

/-- Modelled from the spec: `MLSetup` (defined in `mlexpy/pipeline_utils.py`,
not among the sources at hand) is the pairing of an observation table and a
label sequence. -/
structure MLSetup where
  obs : PyVal
  labels : PyVal
  deriving DecidableEq, Repr

/-- Modelled from the spec: `ExperimentSetup` (defined in
`mlexpy/pipeline_utils.py`, not among the sources at hand) pairs a train
`MLSetup` with a test `MLSetup`. -/
structure ExperimentSetup where
  train_data : MLSetup
  test_data : MLSetup
  deriving DecidableEq, Repr

/-- Tag identifying a model-IO strategy slot value: one of the two default
bound methods, or a user-supplied custom function (identified by a tag,
since only identity matters to the binding logic). -/
inductive IOFn where
  | default_store_model
  | default_load_model
  | user (n : Nat)
  deriving DecidableEq, Repr

/-- State of an experiment controller after construction: the instance
attributes set by `ExperimentBase.__init__` (the claims do not touch
`model_dir`, whose filesystem path resolution is not embedded).
`load_model : Option IOFn` records whether the `load_model` attribute was
ever assigned: `none` models the attribute being absent, so that reading it
raises `AttributeError`.  `baseline_value` is only assigned by the two
subclass constructors; the base constructor leaves it untouched, and no base
operation reads it, so it is carried here uniformly. -/
structure ExperimentState where
  training : MLSetup
  testing : MLSetup
  test_cv_split : Rat
  rnd : Nat
  cv_split_count : Nat
  metric_dict : List (String × PyMetric)
  standard_metric : String
  process_tag : String
  model_tag : String
  store_model : IOFn
  load_model : Option IOFn
  baseline_value : PyVal

/-- Embedding of `ExperimentBase.__init__` (experiment.py lines 41-96,
model-directory resolution omitted).  The model-IO slot resolution mirrors
lines 64-80 verbatim, including line 80, which assigns a supplied custom
loading function to `self.store_model` (not `self.load_model`), leaving the
`load_model` attribute unassigned in that branch. -/
def ExperimentBase.init (train_setup test_setup : MLSetup)
    (cv_split_count rnd_int : Nat)
    (model_storage_function model_loading_function : Option IOFn)
    (model_tag process_tag : String) : ExperimentState :=
  let sm : IOFn :=
    match model_storage_function with
    | Option.none => IOFn.default_store_model
    | some f => f
  let slots : IOFn × Option IOFn :=
    match model_loading_function with
    | Option.none => (sm, some IOFn.default_load_model)
    | some f => (f, Option.none)
  { training := train_setup
    testing := test_setup
    test_cv_split := mkRat 4 10
    rnd := rnd_int
    cv_split_count := cv_split_count
    metric_dict := []
    standard_metric := ""
    process_tag := process_tag
    model_tag := model_tag
    store_model := slots.1
    load_model := slots.2
    baseline_value := PyVal.none }

/-- Embedding of `ExperimentBase.add_metric`: `self.metric_dict[name] = metric`.
Represented on the association list with Python dict update semantics. -/
def ExperimentBase.add_metric (st : ExperimentState) (metric : PyMetric) (name : String) :
    ExperimentState :=
  { st with metric_dict :=
      match st.metric_dict.lookup name with
      | some _ => st.metric_dict.map (fun e => if e.1 = name then (name, metric) else e)
      | Option.none => st.metric_dict ++ [(name, metric)] }

/-- Selection of the value to score (the shared baseline logic at the top of
both `evaluate_predictions` overrides, experiment.py lines 289-296 and
465-472): with `baseline_prediction=True`, `if not self.baseline_value:`
raises `ValueError`, otherwise the baseline becomes the scored value. -/
def selectEvaluationPrediction (st : ExperimentState) (baseline_prediction : Bool)
    (predictions : PyVal) : Except PyErr PyVal :=
  if baseline_prediction then
    if st.baseline_value.truthy then .ok st.baseline_value else .error PyErr.valueError
  else .ok predictions

/-- One iteration of the classifier metric loop (experiment.py lines
300-321) on a single registry entry: f1-like names get the three averaged
variants under suffixed keys; any other name is scored on the selected
predictions, retried on the class probabilities if a `ValueError` is raised,
and silently dropped (with a printed diagnostic) if the retry also raises a
`ValueError`; any non-`ValueError` exception propagates. -/
def stepMetric (labels ep probs : PyVal) (e : String × PyMetric) (d : ResultDict) :
    Except PyErr ResultDict :=
  if strHasF1 e.1 then
    match e.2.callAvg labels ep "macro" with
    | .error er => .error er
    | .ok vmac =>
      match e.2.callAvg labels ep "micro" with
      | .error er => .error er
      | .ok vmic =>
        match e.2.callAvg labels ep "weighted" with
        | .error er => .error er
        | .ok vw =>
          .ok (dinsert (dinsert (dinsert d (e.1 ++ "_macro") vmac) (e.1 ++ "_micro") vmic)
                (e.1 ++ "_weighted") vw)
  else
    match e.2.call labels ep with
    | .ok v => .ok (dinsert d e.1 v)
    | .error PyErr.valueError =>
      match e.2.call labels probs with
      | .ok v => .ok (dinsert d e.1 v)
      | .error PyErr.valueError => .ok d
      | .error er => .error er
    | .error er => .error er

/-- The classifier metric loop `for name, metric in self.metric_dict.items():`
building `result_dict`. -/
def runMetrics (labels ep probs : PyVal) :
    List (String × PyMetric) → ResultDict → Except PyErr ResultDict
  | [], d => .ok d
  | e :: rest, d =>
    match stepMetric labels ep probs e d with
    | .ok d' => runMetrics labels ep probs rest d'
    | .error er => .error er

/-- Embedding of `ClassifierExperimentBase.evaluate_predictions`
(experiment.py lines 280-326): baseline selection, then the metric loop over
the registry starting from an empty dict; the printed score lines are pure
side effects and do not alter the returned dict. -/
def ClassifierExperimentBase.evaluate_predictions (st : ExperimentState)
    (labels predictions class_probabilities : PyVal) (baseline_prediction : Bool) :
    Except PyErr ResultDict :=
  match selectEvaluationPrediction st baseline_prediction predictions with
  | .error er => .error er
  | .ok ep => runMetrics labels ep class_probabilities st.metric_dict []

/-- The regression metric loop (experiment.py lines 476-478): every metric
is applied directly to `(labels, evaluation_prediction)` with no exception
handling, so any raise propagates. -/
def runMetricsDirect (labels ep : PyVal) :
    List (String × PyMetric) → ResultDict → Except PyErr ResultDict
  | [], d => .ok d
  | e :: rest, d =>
    match e.2.call labels ep with
    | .ok v => runMetricsDirect labels ep rest (dinsert d e.1 v)
    | .error er => .error er

/-- Embedding of `RegressionExperimentBase.evaluate_predictions`
(experiment.py lines 456-479): baseline selection, then the direct metric
loop (no fallback branching, no averaging variants). -/
def RegressionExperimentBase.evaluate_predictions (st : ExperimentState)
    (labels predictions class_probabilities : PyVal) (baseline_prediction : Bool) :
    Except PyErr ResultDict :=
  match selectEvaluationPrediction st baseline_prediction predictions with
  | .error er => .error er
  | .ok ep => runMetricsDirect labels ep st.metric_dict []

/-- Models the external `sklearn.metrics.mean_squared_error`: mean of
squared differences; raises `ValueError` on mismatched or empty inputs. -/
def mean_squared_error (y_true y_pred : PyVal) : Except PyErr PyVal :=
  match toFloats y_true, toFloats y_pred with
  | some xs, some ys =>
    if xs.length = ys.length ∧ xs.length ≠ 0 then
      .ok (.num (((xs.zip ys).map (fun p => (p.1 - p.2) ^ 2)).sum / (xs.length : Rat)))
    else .error PyErr.valueError
  | _, _ => .error PyErr.valueError

/-- Models the external `sklearn.metrics.mean_absolute_error`: mean of
absolute differences; raises `ValueError` on mismatched or empty inputs. -/
def mean_absolute_error (y_true y_pred : PyVal) : Except PyErr PyVal :=
  match toFloats y_true, toFloats y_pred with
  | some xs, some ys =>
    if xs.length = ys.length ∧ xs.length ≠ 0 then
      .ok (.num (((xs.zip ys).map (fun p => |p.1 - p.2|)).sum / (xs.length : Rat)))
    else .error PyErr.valueError
  | _, _ => .error PyErr.valueError

/-- The `mse` registry entry of the regression specialization.  Passing an
`average` keyword to this sklearn function would be a `TypeError`. -/
def mseMetric : PyMetric :=
  { call := mean_squared_error
    callAvg := fun _ _ _ => .error PyErr.typeError }

/-- The `mae` registry entry of the regression specialization. -/
def maeMetric : PyMetric :=
  { call := mean_absolute_error
    callAvg := fun _ _ _ => .error PyErr.typeError }

/-- Embedding of `RegressionExperimentBase.__init__` (experiment.py lines
426-454): the base constructor followed by the subclass assignments of
`baseline_value`, `standard_metric` and the default metric registry. -/
def RegressionExperimentBase.init (train_setup test_setup : MLSetup)
    (cv_split_count rnd_int : Nat)
    (model_storage_function model_loading_function : Option IOFn)
    (model_tag process_tag : String) : ExperimentState :=
  { ExperimentBase.init train_setup test_setup cv_split_count rnd_int
      model_storage_function model_loading_function model_tag process_tag with
    baseline_value := PyVal.none
    standard_metric := "neg_root_mean_squared_error"
    metric_dict := [("mse", mseMetric), ("mae", maeMetric)] }

/-- Models the external `numpy.random.RandomState`: drawing advances the
internal state (a linear congruential step stands in for the Mersenne
twister; only the fact that a draw mutates the shared state matters to the
properties below) and yields a 32-bit value. -/
def rngDraw (s : Nat) : Nat × Nat :=
  ((s * 1664525 + 1013904223) % 4294967296, (s * 1664525 + 1013904223) % 4294967296)

/-- The splitter object built by `ExperimentBase.cv_splits` (experiment.py
lines 154-160).  The Python object also holds `random_state=self.rnd`, the
controller's `RandomState` *instance*: that aliasing is modelled by
threading the controller's `rnd` state explicitly through every
materialization of the splitter's folds. -/
structure StratifiedShuffleSplit where
  n_splits : Nat
  test_size : Rat
  deriving DecidableEq, Repr

/-- Embedding of `ExperimentBase.cv_splits`: builds a
`StratifiedShuffleSplit` with the controller's fixed test fraction; its
random source is the controller's shared `RandomState` (see
`StratifiedShuffleSplit`). -/
def ExperimentBase.cv_splits (st : ExperimentState) (n_splits : Nat) :
    StratifiedShuffleSplit :=
  { n_splits := n_splits, test_size := st.test_cv_split }

/-- Ceiling of `q * n` for a nonnegative rational `q`, computed by integer
arithmetic on the reduced fraction. -/
def ceilMul (q : Rat) (n : Nat) : Nat :=
  ((q.num * n + q.den - 1) / (q.den : Int)).toNat

/-- Models one `_iter_indices` draw of the external sklearn shuffle-split:
consume one value from the supplied random state and derive a
(test, train) index partition of `n_samples` points from it, with
`ceil(test_size * n_samples)` test points.  The partition depends on the
drawn value and the advanced state is returned, exactly the observable
contract of the external code when given a `RandomState` instance. -/
def iterIndices (test_size : Rat) (n_samples : Nat) (s : Nat) :
    (List Nat × List Nat) × Nat :=
  let n_test := ceilMul test_size n_samples
  let draw := (rngDraw s).1
  let s' := (rngDraw s).2
  let test := (List.range n_test).map (fun i => (draw + i) % n_samples)
  let train := (List.range n_samples).filter (fun i => !(test.contains i))
  ((test, train), s')

/-- Materialize `k` successive folds from a shared random state, threading
the state through the draws. -/
def splitGo (test_size : Rat) (n_samples k : Nat) (s : Nat) :
    List (List Nat × List Nat) × Nat :=
  match k with
  | 0 => ([], s)
  | k' + 1 =>
    let fs := iterIndices test_size n_samples s
    let rest := splitGo test_size n_samples k' fs.2
    (fs.1 :: rest.1, rest.2)

/-- Materialize all folds of a splitter (Python: `list(splitter.split(X, y))`)
from the current shared random state, returning the folds and the advanced
state of the shared `RandomState`. -/
def splitFolds (g : StratifiedShuffleSplit) (n_samples : Nat) (s : Nat) :
    List (List Nat × List Nat) × Nat :=
  splitGo g.test_size n_samples g.n_splits s

/-- Search strategy chosen by the cross-validation dispatcher. -/
inductive SearchKind where
  | grid_search
  | random_search
  deriving DecidableEq, Repr

/-- Record of the search object constructed by `cv_search` before fitting:
the constructor arguments passed to `GridSearchCV` / `RandomizedSearchCV`
(experiment.py lines 179-197). -/
structure CVSearchSpec where
  kind : SearchKind
  scoring : String
  param_space : List (String × List PyVal)
  n_iter : Option Nat
  splits : StratifiedShuffleSplit
  n_jobs : Nat
  refit : Bool
  verbose : Nat
  deriving DecidableEq, Repr

/-- Embedding of `ExperimentBase.cv_search` (experiment.py lines 162-201).
The guard `if not self.standard_metric:` (truthiness of a string: empty
means falsy) raises `NotImplementedError` before anything else happens.
The external search-and-fit machinery (`GridSearchCV`/`RandomizedSearchCV`
construction plus `.fit` returning `best_estimator_`) is abstracted as the
function argument `search_fit`, applied to the constructed search spec, the
base model and the training data; that the error branch never consults
`search_fit` or the data is exactly the fail-fast property claimed. -/
def ExperimentBase.cv_search {α : Type} (st : ExperimentState) (data_setup : MLSetup)
    (ml_model : α) (parameters : List (String × List PyVal)) (cv_model : String)
    (random_iterations : Nat) (search_fit : CVSearchSpec → α → MLSetup → α) :
    Except PyErr α :=
  if st.standard_metric = "" then .error PyErr.notImplementedError
  else if cv_model = "grid_search" then
    .ok (search_fit
      { kind := SearchKind.grid_search
        scoring := st.standard_metric
        param_space := parameters
        n_iter := Option.none
        splits := ExperimentBase.cv_splits st st.cv_split_count
        n_jobs := 1
        refit := true
        verbose := 0 } ml_model data_setup)
  else
    .ok (search_fit
      { kind := SearchKind.random_search
        scoring := st.standard_metric
        param_space := parameters
        n_iter := some random_iterations
        splits := ExperimentBase.cv_splits st st.cv_split_count
        n_jobs := 1
        refit := true
        verbose := 2 } ml_model data_setup)

/-- Insert an integer into a sorted list, keeping it sorted. -/
def insertSorted (x : Int) : List Int → List Int
  | [] => [x]
  | y :: ys => if x ≤ y then x :: y :: ys else y :: insertSorted x ys

/-- Insertion sort on integer labels. -/
def sortInts : List Int → List Int
  | [] => []
  | x :: xs => insertSorted x (sortInts xs)

/-- Remove adjacent duplicates from a sorted list, yielding the distinct
class labels in increasing order. -/
def dedupSorted : List Int → List Int
  | [] => []
  | [x] => [x]
  | x :: y :: r => if x = y then dedupSorted (y :: r) else x :: dedupSorted (y :: r)

/-- Mann-Whitney area under the ROC curve for boolean class flags against
scores: the fraction of (positive, negative) pairs ranked correctly, ties
counting one half.  Raises `ValueError` when a class is empty or the lengths
disagree, as the external scorer does. -/
def binAuc (flags : List Bool) (scores : List Rat) : Except PyErr Rat :=
  if flags.length = scores.length then
    let pairs := flags.zip scores
    let pos := (pairs.filter (fun p => p.1)).map Prod.snd
    let neg := (pairs.filter (fun p => !p.1)).map Prod.snd
    if pos.isEmpty || neg.isEmpty then .error PyErr.valueError
    else
      .ok (((pos.map (fun sp =>
          (neg.map (fun sn => if sn < sp then (1 : Rat) else if sp = sn then 1/2 else 0)).sum)).sum)
        / ((pos.length : Rat) * (neg.length : Rat)))
  else .error PyErr.valueError

/-- Models the external `sklearn.metrics.roc_auc_score` for binary labels:
requires exactly two distinct label values, takes the greater one as the
positive class, and scores the supplied probability column by pairwise
ranking. -/
def roc_auc_score (y_true : PyVal) (y_score : List Rat) : Except PyErr Rat :=
  match y_true with
  | .ints ys =>
    match dedupSorted (sortInts ys) with
    | [_, hi] => binAuc (ys.map (fun y => y == hi)) y_score
    | _ => .error PyErr.valueError
  | _ => .error PyErr.valueError

/-- Column `j` of a probability matrix (`probs[:, j]`). -/
def columnOf (probs : List (List Rat)) (j : Nat) : List Rat :=
  probs.map (fun row => row.getD j 0)

/-- Models the numpy slice `class_probabilities[:, 1]`: the second column of
the matrix; raises `IndexError` when a row has fewer than two entries. -/
def columnIndex1 (p : List (List Rat)) : Except PyErr (List Rat) :=
  if p.all (fun row => 1 < row.length) then .ok (p.map (fun row => row.getD 1 0))
  else .error PyErr.indexError

/-- Models the external `sklearn.metrics.roc_auc_score` with
`average="weighted"` and `multi_class="ovr"`: the class-frequency-weighted
mean of the per-class one-vs-rest pairwise-ranking areas, classes taken in
increasing label order against the matching probability column. -/
def roc_auc_score_ovr_weighted (y_true : PyVal) (probs : List (List Rat)) :
    Except PyErr Rat :=
  match y_true with
  | .ints ys =>
    let classes := dedupSorted (sortInts ys)
    if probs.length = ys.length ∧ 2 < classes.length then
      classes.enum.foldlM (fun acc jc => do
        let a ← binAuc (ys.map (fun y => y == jc.2)) (columnOf probs jc.1)
        pure (acc + ((ys.filter (fun y => y == jc.2)).length : Rat) / (ys.length : Rat) * a)) 0
    else .error PyErr.valueError
  | _ => .error PyErr.valueError

/-- The binary branch of `evaluate_roc_metrics` (experiment.py lines
345-361): score column index 1 of the probability matrix against the true
test labels.  The `RocCurveDisplay` rendering is a visualization side effect
with no influence on the returned dict and is not embedded. -/
def rocBinaryBranch (full_setup : ExperimentSetup) (p : List (List Rat)) :
    Except PyErr ResultDict := do
  let col ← columnIndex1 p
  let r ← roc_auc_score full_setup.test_data.labels col
  pure [("roc_auc_score", PyVal.num r)]

/-- The multiclass branch of `evaluate_roc_metrics` (experiment.py lines
363-379): weighted one-vs-rest score over the whole matrix.  The per-class
ROC plotting is a visualization side effect and is not embedded. -/
def rocMulticlassBranch (full_setup : ExperimentSetup) (p : List (List Rat)) :
    Except PyErr ResultDict := do
  let r ← roc_auc_score_ovr_weighted full_setup.test_data.labels p
  pure [("roc_auc_score", PyVal.num r)]

/-- Embedding of `ClassifierExperimentBase.evaluate_roc_metrics`
(experiment.py lines 328-381): the one-record guard raising `ValueError`,
then the binary/multiclass branch on the width of the first probability
row.  The `model` parameter of the Python method is consumed only by the
omitted `RocCurveDisplay` rendering and is therefore not embedded. -/
def ClassifierExperimentBase.evaluate_roc_metrics (full_setup : ExperimentSetup)
    (class_probabilities : List (List Rat)) : Except PyErr ResultDict :=
  if class_probabilities.length ≤ 1 then .error PyErr.valueError
  else if (class_probabilities.headD []).length ≤ 2 then
    rocBinaryBranch full_setup class_probabilities
  else rocMulticlassBranch full_setup class_probabilities

/-- Keys that processing one registry entry can write into `result_dict`. -/
def entryKeys (e : String × PyMetric) : List String :=
  if strHasF1 e.1 then [e.1 ++ "_macro", e.1 ++ "_micro", e.1 ++ "_weighted"] else [e.1]

/-- Keys that processing a whole registry can write into `result_dict`. -/
def writtenKeys : List (String × PyMetric) → List String
  | [] => []
  | e :: rest => entryKeys e ++ writtenKeys rest

/-- An entry is benign for given inputs when its calls only fail in ways the
metric loop absorbs: an f1-like entry's three averaged calls all succeed,
and any failure of another entry's two call shapes is a `ValueError` (the
only exception the loop catches). -/
def benignEntry (labels ep probs : PyVal) (e : String × PyMetric) : Prop :=
  if strHasF1 e.1 then
    (∃ v, e.2.callAvg labels ep "macro" = .ok v) ∧
    (∃ v, e.2.callAvg labels ep "micro" = .ok v) ∧
    (∃ v, e.2.callAvg labels ep "weighted" = .ok v)
  else
    (∀ er, e.2.call labels ep = .error er → er = PyErr.valueError) ∧
    (∀ er, e.2.call labels probs = .error er → er = PyErr.valueError)

/-- Trivial data setup used for concrete instantiations. -/
def mlSetup0 : MLSetup := { obs := PyVal.none, labels := PyVal.none }

/-- Regression controller with its baseline set to an empty sequence: a
configured but falsy baseline value. -/
def regStateBaselineEmpty : ExperimentState :=
  { RegressionExperimentBase.init mlSetup0 mlSetup0 5 100 Option.none Option.none
      "_development" "_development" with
    baseline_value := PyVal.ints [] }

/-- Regression controller with a truthy configured baseline value. -/
def regStateBaselineSet : ExperimentState :=
  { RegressionExperimentBase.init mlSetup0 mlSetup0 5 100 Option.none Option.none
      "_development" "_development" with
    baseline_value := PyVal.ints [3] }

/-- Base controller constructed with all defaults, for concrete
instantiations. -/
def experimentStateDefault : ExperimentState :=
  ExperimentBase.init mlSetup0 mlSetup0 5 100 Option.none Option.none
    "_development" "_development"

/-- Experiment setup whose test labels are the binary sequence `[0, 1]`,
used to instantiate the ROC properties. -/
def setupRoc : ExperimentSetup :=
  { train_data := mlSetup0
    test_data := { obs := PyVal.none, labels := PyVal.ints [0, 1] } }

/-- Probe metric for concrete instantiations: raises `ValueError` on every
argument except the probability value `mat [[1]]`, on which it succeeds.
Its averaged call shape raises `TypeError`. -/
def mProbeFallback : PyMetric :=
  { call := fun _ v => if v = PyVal.mat [[1]] then .ok (PyVal.str "fromprobs")
      else .error PyErr.valueError
    callAvg := fun _ _ _ => .error PyErr.typeError }

/-- Probe metric for concrete instantiations of the averaged branch:
returns the averaging mode it was called with. -/
def mProbeAvg : PyMetric :=
  { call := fun _ _ => .error PyErr.typeError
    callAvg := fun _ _ avg => .ok (PyVal.str avg) }

/-- Reading back the key just written. -/
theorem dlookup_dinsert_self (d : ResultDict) (k : String) (v : PyVal) :
    dlookup (dinsert d k v) k = some v := by
  induction d with
  | nil => simp [dinsert, dlookup]
  | cons e rest ih =>
    by_cases h : e.1 = k
    · simp [dinsert, dlookup, h]
    · simp [dinsert, dlookup, h, ih]

/-- Writing one key leaves every other key's binding unchanged. -/
theorem dlookup_dinsert_ne (d : ResultDict) (k k' : String) (v : PyVal) (h : k' ≠ k) :
    dlookup (dinsert d k' v) k = dlookup d k := by
  induction d with
  | nil => simp [dinsert, dlookup, h]
  | cons e rest ih =>
    by_cases he : e.1 = k'
    · simp [dinsert, dlookup, he, h]
    · by_cases hek : e.1 = k
      · simp [dinsert, dlookup, he, hek, Ne.symm h]
      · simp [dinsert, dlookup, he, hek, ih]

/-- A prefix of a list is still a prefix after extending the list. -/
theorem isPrefixOf_append_extend (p l r : List Char) (h : p.isPrefixOf l = true) :
    p.isPrefixOf (l ++ r) = true := by
  rw [List.isPrefixOf_iff_prefix] at h ⊢
  exact h.trans (List.prefix_append l r)

/-- The empty pattern occurs in every list. -/
theorem hasSub_nil_pat (r : List Char) : hasSub [] r = true := by
  cases r with
  | nil => rfl
  | cons c cs => simp [hasSub, List.isPrefixOf]

/-- A substring occurrence survives appending on the right. -/
theorem hasSub_append_right (pat l r : List Char) (h : hasSub pat l = true) :
    hasSub pat (l ++ r) = true := by
  induction l with
  | nil =>
    have : pat = [] := by simpa [hasSub, List.isEmpty_iff] using h
    subst this
    exact hasSub_nil_pat r
  | cons c cs ih =>
    simp only [hasSub, Bool.or_eq_true] at h
    rcases h with h | h
    · simp only [List.cons_append, hasSub, Bool.or_eq_true]
      exact Or.inl (isPrefixOf_append_extend pat (c :: cs) r h)
    · simp only [List.cons_append, hasSub, Bool.or_eq_true]
      exact Or.inr (ih h)

/-- Appending to a name that mentions `"f1"` keeps the mention. -/
theorem strHasF1_append (s t : String) (h : strHasF1 s = true) :
    strHasF1 (s ++ t) = true := by
  unfold strHasF1 at h ⊢
  rw [String.data_append]
  exact hasSub_append_right _ _ _ h

/-- Appending suffixes of equal length is jointly injective. -/
theorem string_append_inj_of_length (n₁ n₂ s₁ s₂ : String)
    (hl : s₁.data.length = s₂.data.length) (h : n₁ ++ s₁ = n₂ ++ s₂) :
    n₁ = n₂ ∧ s₁ = s₂ := by
  have hd := congrArg String.data h
  rw [String.data_append, String.data_append] at hd
  obtain ⟨h1, h2⟩ := List.append_inj' hd hl
  exact ⟨String.ext h1, String.ext h2⟩

/-- Appended strings with different final characters are different. -/
theorem string_append_ne_of_getLast (n₁ n₂ s₁ s₂ : String) (c₁ c₂ : Char)
    (h₁ : s₁.data.getLast? = some c₁) (h₂ : s₂.data.getLast? = some c₂)
    (hne : c₁ ≠ c₂) : n₁ ++ s₁ ≠ n₂ ++ s₂ := by
  intro h
  have hd := congrArg String.data h
  rw [String.data_append, String.data_append] at hd
  have hs₁ : s₁.data ≠ [] := by
    intro he
    rw [he] at h₁
    simp at h₁
  have hs₂ : s₂.data ≠ [] := by
    intro he
    rw [he] at h₂
    simp at h₂
  have hg := congrArg List.getLast? hd
  rw [List.getLast?_append_of_ne_nil _ hs₁, List.getLast?_append_of_ne_nil _ hs₂] at hg
  rw [h₁, h₂] at hg
  exact hne (Option.some_injective _ hg)

/-- The three averaging suffixes make name-plus-suffix keys jointly
injective: equal keys force equal names and equal suffixes. -/
theorem avgSuffix_append_inj (n₁ n₂ s₁ s₂ : String)
    (h₁ : s₁ ∈ avgSuffixes) (h₂ : s₂ ∈ avgSuffixes) (h : n₁ ++ s₁ = n₂ ++ s₂) :
    n₁ = n₂ ∧ s₁ = s₂ := by
  simp only [avgSuffixes, List.mem_cons, List.mem_singleton, List.not_mem_nil, or_false] at h₁ h₂
  rcases h₁ with h₁ | h₁ | h₁ <;> rcases h₂ with h₂ | h₂ | h₂ <;> subst h₁ <;> subst h₂
  · exact string_append_inj_of_length _ _ _ _ (by decide) h
  · exact absurd (string_append_inj_of_length _ _ _ _ (by decide) h).2 (by decide)
  · exact absurd h (string_append_ne_of_getLast _ _ _ _ 'o' 'd' (by decide) (by decide) (by decide))
  · exact absurd (string_append_inj_of_length _ _ _ _ (by decide) h).2 (by decide)
  · exact string_append_inj_of_length _ _ _ _ (by decide) h
  · exact absurd h (string_append_ne_of_getLast _ _ _ _ 'o' 'd' (by decide) (by decide) (by decide))
  · exact absurd h (string_append_ne_of_getLast _ _ _ _ 'd' 'o' (by decide) (by decide) (by decide))
  · exact absurd h (string_append_ne_of_getLast _ _ _ _ 'd' 'o' (by decide) (by decide) (by decide))
  · exact string_append_inj_of_length _ _ _ _ (by decide) h

/-- A name with an averaging suffix appended never equals the bare name. -/
theorem append_avgSuffix_ne_self (n s : String) (h : s ∈ avgSuffixes) :
    n ++ s ≠ n := by
  intro he
  have hd := congrArg String.data he
  rw [String.data_append] at hd
  have hd' : n.data ++ s.data = n.data ++ [] := by rw [List.append_nil]; exact hd
  have hs := List.append_cancel_left hd'
  simp only [avgSuffixes, List.mem_cons, List.mem_singleton, List.not_mem_nil, or_false] at h
  rcases h with h | h | h <;> subst h <;> simp at hs

/-- Processing one registry entry leaves every key outside its written-key
set untouched. -/
theorem stepMetric_frame (labels ep probs : PyVal) (e : String × PyMetric)
    (d d' : ResultDict) (k : String) (h : stepMetric labels ep probs e d = .ok d')
    (hk : k ∉ entryKeys e) : dlookup d' k = dlookup d k := by
  by_cases hf : strHasF1 e.1
  · simp only [entryKeys, hf, if_true, List.mem_cons, List.mem_singleton,
      List.not_mem_nil, or_false, not_or] at hk
    obtain ⟨hk1, hk2, hk3⟩ := hk
    simp only [stepMetric, hf, if_true] at h
    cases hma : e.2.callAvg labels ep "macro" with
    | error er => rw [hma] at h; exact absurd h (by simp)
    | ok vmac =>
      rw [hma] at h
      cases hmi : e.2.callAvg labels ep "micro" with
      | error er => rw [hmi] at h; exact absurd h (by simp)
      | ok vmic =>
        rw [hmi] at h
        cases hwe : e.2.callAvg labels ep "weighted" with
        | error er => rw [hwe] at h; exact absurd h (by simp)
        | ok vw =>
          rw [hwe] at h
          have hd : d' = dinsert (dinsert (dinsert d (e.1 ++ "_macro") vmac)
              (e.1 ++ "_micro") vmic) (e.1 ++ "_weighted") vw := by
            injection h with h; exact h.symm
          subst hd
          rw [dlookup_dinsert_ne _ _ _ _ (fun he => hk3 he.symm),
            dlookup_dinsert_ne _ _ _ _ (fun he => hk2 he.symm),
            dlookup_dinsert_ne _ _ _ _ (fun he => hk1 he.symm)]
  · simp [entryKeys, hf] at hk
    simp only [stepMetric, hf, if_false] at h
    cases hc : e.2.call labels ep with
    | ok v =>
      rw [hc] at h
      have hd : d' = dinsert d e.1 v := by injection h with h; exact h.symm
      subst hd
      exact dlookup_dinsert_ne _ _ _ _ (fun he => hk he.symm)
    | error er =>
      rw [hc] at h
      cases er with
      | valueError =>
        cases hc2 : e.2.call labels probs with
        | ok v =>
          rw [hc2] at h
          have hd : d' = dinsert d e.1 v := by injection h with h; exact h.symm
          subst hd
          exact dlookup_dinsert_ne _ _ _ _ (fun he => hk he.symm)
        | error er2 =>
          rw [hc2] at h
          cases er2 with
          | valueError =>
            have hd : d' = d := by injection h with h; exact h.symm
            subst hd; rfl
          | notImplementedError => exact absurd h (by simp)
          | typeError => exact absurd h (by simp)
          | indexError => exact absurd h (by simp)
          | attributeError => exact absurd h (by simp)
      | notImplementedError => exact absurd h (by simp)
      | typeError => exact absurd h (by simp)
      | indexError => exact absurd h (by simp)
      | attributeError => exact absurd h (by simp)

/-- Running the metric loop leaves every key outside the registry's
written-key set untouched. -/
theorem runMetrics_frame (labels ep probs : PyVal) (reg : List (String × PyMetric))
    (d d' : ResultDict) (k : String) (h : runMetrics labels ep probs reg d = .ok d')
    (hk : k ∉ writtenKeys reg) : dlookup d' k = dlookup d k := by
  induction reg generalizing d with
  | nil =>
    have hd : d' = d := by
      simp only [runMetrics] at h
      injection h with h
      exact h.symm
    subst hd; rfl
  | cons e rest ih =>
    simp only [writtenKeys, List.mem_append, not_or] at hk
    simp only [runMetrics] at h
    cases hs : stepMetric labels ep probs e d with
    | error er => rw [hs] at h; exact absurd h (by simp)
    | ok d₁ =>
      rw [hs] at h
      have h1 := ih d₁ h (by
        intro hm
        exact hk.2 (by simpa [writtenKeys] using hm))
      rw [h1]
      exact stepMetric_frame labels ep probs e d d₁ k hs hk.1

/-- A benign entry never aborts the metric loop. -/
theorem stepMetric_progress (labels ep probs : PyVal) (e : String × PyMetric)
    (d : ResultDict) (hb : benignEntry labels ep probs e) :
    ∃ d', stepMetric labels ep probs e d = .ok d' := by
  by_cases hf : strHasF1 e.1
  · simp only [benignEntry, hf, if_true] at hb
    obtain ⟨⟨v1, h1⟩, ⟨v2, h2⟩, ⟨v3, h3⟩⟩ := hb
    exact ⟨dinsert (dinsert (dinsert d (e.1 ++ "_macro") v1) (e.1 ++ "_micro") v2)
      (e.1 ++ "_weighted") v3, by simp [stepMetric, hf, h1, h2, h3]⟩
  · simp [benignEntry, hf] at hb
    cases hc : e.2.call labels ep with
    | ok v => exact ⟨dinsert d e.1 v, by simp [stepMetric, hf, hc]⟩
    | error er =>
      have her := hb.1 er hc
      subst her
      cases hc2 : e.2.call labels probs with
      | ok v => exact ⟨dinsert d e.1 v, by simp [stepMetric, hf, hc, hc2]⟩
      | error er2 =>
        have her2 := hb.2 er2 hc2
        subst her2
        exact ⟨d, by simp [stepMetric, hf, hc, hc2]⟩

/-- A registry of benign entries never aborts the metric loop. -/
theorem runMetrics_progress (labels ep probs : PyVal) (reg : List (String × PyMetric))
    (hb : ∀ e ∈ reg, benignEntry labels ep probs e) (d : ResultDict) :
    ∃ d', runMetrics labels ep probs reg d = .ok d' := by
  induction reg generalizing d with
  | nil => exact ⟨d, rfl⟩
  | cons e rest ih =>
    obtain ⟨d₁, h₁⟩ := stepMetric_progress labels ep probs e d
      (hb e (List.mem_cons_self e rest))
    obtain ⟨d₂, h₂⟩ := ih (fun e' he' => hb e' (List.mem_cons_of_mem e he')) d₁
    exact ⟨d₂, by simp [runMetrics, h₁, h₂]⟩

/-- The metric loop over a concatenated registry runs the parts in
sequence. -/
theorem runMetrics_append (labels ep probs : PyVal) (xs ys : List (String × PyMetric))
    (d : ResultDict) :
    runMetrics labels ep probs (xs ++ ys) d =
      (match runMetrics labels ep probs xs d with
       | .ok d' => runMetrics labels ep probs ys d'
       | .error er => .error er) := by
  induction xs generalizing d with
  | nil => simp [runMetrics]
  | cons e rest ih =>
    simp only [List.cons_append, runMetrics]
    cases hs : stepMetric labels ep probs e d with
    | error er => simp
    | ok d₁ => simpa using ih d₁

/-- A key without `"f1"` that is not a registry name is never written by
the metric loop over that registry. -/
theorem notMem_writtenKeys_of_nonf1 (reg : List (String × PyMetric)) (k : String)
    (hk : strHasF1 k = false) (hn : k ∉ reg.map Prod.fst) : k ∉ writtenKeys reg := by
  induction reg with
  | nil => simp [writtenKeys]
  | cons e rest ih =>
    simp only [List.map_cons, List.mem_cons, not_or] at hn
    simp only [writtenKeys, List.mem_append, not_or]
    refine ⟨?_, ih hn.2⟩
    intro hm
    by_cases hf : strHasF1 e.1
    · simp only [entryKeys, hf, if_true, List.mem_cons, List.mem_singleton,
        List.not_mem_nil, or_false] at hm
      rcases hm with hm | hm | hm <;>
        exact absurd (strHasF1_append e.1 _ hf) (by rw [← hm, hk]; simp)
    · simp [entryKeys, hf] at hm
      exact hn.1 hm

/-- A key containing `"f1"` that is neither a registry name nor a registry
name with an averaging suffix appended is never written by the metric loop
over that registry. -/
theorem notMem_writtenKeys_of_f1 (reg : List (String × PyMetric)) (k : String)
    (hk : strHasF1 k = true) (hn : k ∉ reg.map Prod.fst)
    (halias : ∀ n' ∈ reg.map Prod.fst, ∀ s ∈ avgSuffixes, n' ++ s ≠ k) :
    k ∉ writtenKeys reg := by
  induction reg with
  | nil => simp [writtenKeys]
  | cons e rest ih =>
    simp only [List.map_cons, List.mem_cons, not_or] at hn
    simp only [writtenKeys, List.mem_append, not_or]
    refine ⟨?_, ih hn.2 (fun n' hm s hs => halias n' (by simp [hm]) s hs)⟩
    intro hm
    by_cases hf : strHasF1 e.1
    · simp only [entryKeys, hf, if_true, List.mem_cons, List.mem_singleton,
        List.not_mem_nil, or_false] at hm
      rcases hm with hm | hm | hm
      · exact halias e.1 (by simp) "_macro" (by simp [avgSuffixes]) hm.symm
      · exact halias e.1 (by simp) "_micro" (by simp [avgSuffixes]) hm.symm
      · exact halias e.1 (by simp) "_weighted" (by simp [avgSuffixes]) hm.symm
    · simp [entryKeys, hf] at hm
      rw [hm] at hk
      exact absurd hk (by simp [hf])

/-- A suffixed key of an f1-like name outside the registry names is never
written by the metric loop over that registry. -/
theorem notMem_writtenKeys_suffixed (reg : List (String × PyMetric)) (n s : String)
    (hf : strHasF1 n = true) (hs : s ∈ avgSuffixes) (hn : n ∉ reg.map Prod.fst) :
    (n ++ s) ∉ writtenKeys reg := by
  induction reg with
  | nil => simp [writtenKeys]
  | cons e rest ih =>
    simp only [List.map_cons, List.mem_cons, not_or] at hn
    simp only [writtenKeys, List.mem_append, not_or]
    refine ⟨?_, ih hn.2⟩
    intro hm
    by_cases hfe : strHasF1 e.1
    · simp only [entryKeys, hfe, if_true, List.mem_cons, List.mem_singleton,
        List.not_mem_nil, or_false] at hm
      rcases hm with hm | hm | hm
      · exact hn.1 (avgSuffix_append_inj n e.1 s "_macro" hs (by simp [avgSuffixes]) hm).1
      · exact hn.1 (avgSuffix_append_inj n e.1 s "_micro" hs (by simp [avgSuffixes]) hm).1
      · exact hn.1 (avgSuffix_append_inj n e.1 s "_weighted" hs (by simp [avgSuffixes]) hm).1
    · simp [entryKeys, hfe] at hm
      have := strHasF1_append n s hf
      rw [hm] at this
      exact absurd this (by simp [hfe])

/-- Splitting a duplicate-free registry at a member: the member's name
occurs in neither part. -/
theorem nodup_split_names (pre post : List (String × PyMetric)) (n : String)
    (m : PyMetric) (h : ((pre ++ (n, m) :: post).map Prod.fst).Nodup) :
    n ∉ pre.map Prod.fst ∧ n ∉ post.map Prod.fst := by
  rw [List.map_append, List.map_cons, List.nodup_append] at h
  obtain ⟨_, h2, hdisj⟩ := h
  refine ⟨fun hm => ?_, ?_⟩
  · exact hdisj hm (List.mem_cons_self n _)
  · exact (List.nodup_cons.1 h2).1

/-- Zipping a list with itself pairs each element with itself. -/
theorem zip_self_eq_map {α : Type} (xs : List α) :
    xs.zip xs = xs.map (fun x => (x, x)) := by
  induction xs with
  | nil => rfl
  | cons x rest ih => simp [List.zip_cons_cons, ih]

/-- Mean squared error of a nonempty sequence against itself is zero. -/
theorem mse_self (xs : List Rat) (hx : xs ≠ []) :
    mean_squared_error (PyVal.rats xs) (PyVal.rats xs) = .ok (PyVal.num 0) := by
  simp only [mean_squared_error, toFloats]
  rw [if_pos ⟨trivial, fun h => hx (List.length_eq_zero.1 h)⟩]
  have hz : ((xs.zip xs).map fun p => (p.1 - p.2) ^ 2).sum = 0 := by
    apply List.sum_eq_zero
    intro x hxm
    rw [zip_self_eq_map, List.map_map] at hxm
    obtain ⟨a, _, ha⟩ := List.mem_map.1 hxm
    simp at ha
    exact ha.symm
  rw [hz, zero_div]

/-- Mean absolute error of a nonempty sequence against itself is zero. -/
theorem mae_self (xs : List Rat) (hx : xs ≠ []) :
    mean_absolute_error (PyVal.rats xs) (PyVal.rats xs) = .ok (PyVal.num 0) := by
  simp only [mean_absolute_error, toFloats]
  rw [if_pos ⟨trivial, fun h => hx (List.length_eq_zero.1 h)⟩]
  have hz : ((xs.zip xs).map fun p => |p.1 - p.2|).sum = 0 := by
    apply List.sum_eq_zero
    intro x hxm
    rw [zip_self_eq_map, List.map_map] at hxm
    obtain ⟨a, _, ha⟩ := List.mem_map.1 hxm
    simp at ha
    exact ha.symm
  rw [hz, zero_div]

/-- C1 (code_bug evidence): constructing the controller with no custom
storage function but a custom loading function leaves the storage slot
holding the custom *loader* (line 80 assigns `self.store_model`) and the
loading slot unassigned, contradicting the claim that the loader is bound
to the loading slot only and the storage slot is determined solely by the
storage argument. -/
theorem init_custom_loader_lands_in_storage_slot :
    (ExperimentBase.init mlSetup0 mlSetup0 5 100 Option.none (some (IOFn.user 7))
        "_development" "_development").store_model = IOFn.user 7 ∧
    (ExperimentBase.init mlSetup0 mlSetup0 5 100 Option.none (some (IOFn.user 7))
        "_development" "_development").load_model = Option.none :=
  ⟨rfl, rfl⟩

/-- C2 (code_bug evidence): with the default seed, two successive
materializations of `cv_splits(1)` on the same controller yield different
fold partitions of the same 7-record data, because both splitters draw from
the controller's shared mutable random state; the method's own docstring
promises identical splits every time. -/
theorem cv_splits_shared_state_repeats_differ :
    (splitFolds (ExperimentBase.cv_splits experimentStateDefault 1) 7
        experimentStateDefault.rnd).1 ≠
      (splitFolds (ExperimentBase.cv_splits experimentStateDefault 1) 7
        (splitFolds (ExperimentBase.cv_splits experimentStateDefault 1) 7
          experimentStateDefault.rnd).2).1 := by
  decide

/-- C8: invoking `cv_search` on a base-class-constructed controller, whose
`standard_metric` is the empty string, fails with the configuration error
(`NotImplementedError`) no matter what data, model, parameter space,
strategy name, iteration budget or external search-and-fit function is
supplied — so the failure happens before any search object is built or any
fitting occurs. -/
theorem cv_search_unset_standard_metric {α : Type} (train test : MLSetup)
    (csc rnd_int : Nat) (msf mlf : Option IOFn) (mtag ptag : String)
    (data : MLSetup) (model : α) (params : List (String × List PyVal))
    (cv_model : String) (iters : Nat) (search_fit : CVSearchSpec → α → MLSetup → α) :
    ExperimentBase.cv_search
      (ExperimentBase.init train test csc rnd_int msf mlf mtag ptag)
      data model params cv_model iters search_fit =
      .error PyErr.notImplementedError :=
  rfl

/-- C5 (counterexample): a regression controller with the baseline
configured to an empty sequence — a configured, falsy value — still fails
the whole baseline evaluation with `ValueError`, so the configured baseline
is not the value scored, contrary to the claim as stated. -/
theorem baseline_configured_but_falsy_errors :
    regStateBaselineEmpty.baseline_value ≠ PyVal.none ∧
    RegressionExperimentBase.evaluate_predictions regStateBaselineEmpty
      (PyVal.ints [1]) (PyVal.ints [1]) PyVal.none true = .error PyErr.valueError :=
  ⟨by decide, rfl⟩

/-- C5 (amended): requesting baseline evaluation fails immediately with
`ValueError` — independently of the registered metrics and the supplied
predictions — exactly when the configured baseline value is *falsy*
(`None` included); when the configured baseline is truthy, the call scores
the baseline value in place of the predictions, for both the classifier and
the regression specialization. -/
theorem baseline_selection_corrected (st : ExperimentState) (labels preds probs : PyVal) :
    (st.baseline_value.truthy = false →
      ClassifierExperimentBase.evaluate_predictions st labels preds probs true =
        .error PyErr.valueError ∧
      RegressionExperimentBase.evaluate_predictions st labels preds probs true =
        .error PyErr.valueError) ∧
    (st.baseline_value.truthy = true →
      ClassifierExperimentBase.evaluate_predictions st labels preds probs true =
        ClassifierExperimentBase.evaluate_predictions st labels st.baseline_value probs false ∧
      RegressionExperimentBase.evaluate_predictions st labels preds probs true =
        RegressionExperimentBase.evaluate_predictions st labels st.baseline_value probs false) := by
  constructor
  · intro h
    constructor <;>
      simp [ClassifierExperimentBase.evaluate_predictions,
        RegressionExperimentBase.evaluate_predictions, selectEvaluationPrediction, h]
  · intro h
    constructor <;>
      simp [ClassifierExperimentBase.evaluate_predictions,
        RegressionExperimentBase.evaluate_predictions, selectEvaluationPrediction, h]

/-- Witness for the amended C5 statement at concrete controllers: a falsy
configured baseline makes the call fail, and a truthy configured baseline
makes the call score the baseline value. -/
theorem baseline_selection_corrected_witness :
    (RegressionExperimentBase.evaluate_predictions regStateBaselineEmpty
      (PyVal.ints [1]) (PyVal.ints [1]) PyVal.none true = .error PyErr.valueError) ∧
    (RegressionExperimentBase.evaluate_predictions regStateBaselineSet
      (PyVal.ints [1]) (PyVal.ints [1]) PyVal.none true =
      RegressionExperimentBase.evaluate_predictions regStateBaselineSet
        (PyVal.ints [1]) regStateBaselineSet.baseline_value PyVal.none false) :=
  ⟨((baseline_selection_corrected regStateBaselineEmpty (PyVal.ints [1])
      (PyVal.ints [1]) PyVal.none).1 (by decide)).2,
   ((baseline_selection_corrected regStateBaselineSet (PyVal.ints [1])
      (PyVal.ints [1]) PyVal.none).2 (by decide)).2⟩

/-- C10: the baseline-presence check tests truthiness, not presence — any
call with `baseline_prediction=True` whose configured baseline value is
falsy (while not `None`, i.e. genuinely configured) raises the
"no baseline configured" `ValueError` in both specializations. -/
theorem baseline_check_tests_truthiness (st : ExperimentState)
    (labels preds probs : PyVal) (hconf : st.baseline_value ≠ PyVal.none)
    (hfalsy : st.baseline_value.truthy = false) :
    ClassifierExperimentBase.evaluate_predictions st labels preds probs true =
      .error PyErr.valueError ∧
    RegressionExperimentBase.evaluate_predictions st labels preds probs true =
      .error PyErr.valueError := by
  constructor <;>
    simp [ClassifierExperimentBase.evaluate_predictions,
      RegressionExperimentBase.evaluate_predictions, selectEvaluationPrediction, hfalsy]

/-- Witness for C10 at a concrete controller whose baseline is the empty
sequence. -/
theorem baseline_check_tests_truthiness_witness :
    ClassifierExperimentBase.evaluate_predictions regStateBaselineEmpty
      PyVal.none PyVal.none PyVal.none true = .error PyErr.valueError ∧
    RegressionExperimentBase.evaluate_predictions regStateBaselineEmpty
      PyVal.none PyVal.none PyVal.none true = .error PyErr.valueError :=
  baseline_check_tests_truthiness regStateBaselineEmpty PyVal.none PyVal.none PyVal.none
    (by decide) (by decide)

/-- C9: regression `evaluate_predictions` on a nonempty label sequence with
predictions identical to the labels (and no baseline request) returns
exactly the mapping with `mse = 0.0` and `mae = 0.0`, each registered
metric applied directly. -/
theorem regression_eval_perfect_predictions (xs : List Rat) (hx : xs ≠ [])
    (train test : MLSetup) (csc rnd_int : Nat) (msf mlf : Option IOFn)
    (mtag ptag : String) :
    RegressionExperimentBase.evaluate_predictions
      (RegressionExperimentBase.init train test csc rnd_int msf mlf mtag ptag)
      (PyVal.rats xs) (PyVal.rats xs) PyVal.none false =
      .ok [("mse", PyVal.num 0), ("mae", PyVal.num 0)] := by
  simp [RegressionExperimentBase.evaluate_predictions, selectEvaluationPrediction,
    RegressionExperimentBase.init, runMetricsDirect, mseMetric, maeMetric,
    mse_self xs hx, mae_self xs hx, dinsert]

/-- Witness for C9 on the concrete label sequence `[1, 2]`. -/
theorem regression_eval_perfect_predictions_witness :
    RegressionExperimentBase.evaluate_predictions
      (RegressionExperimentBase.init mlSetup0 mlSetup0 5 100 Option.none Option.none
        "_development" "_development")
      (PyVal.rats [1, 2]) (PyVal.rats [1, 2]) PyVal.none false =
      .ok [("mse", PyVal.num 0), ("mae", PyVal.num 0)] :=
  regression_eval_perfect_predictions [1, 2] (by decide) mlSetup0 mlSetup0 5 100
    Option.none Option.none "_development" "_development"

/-- C6: `evaluate_roc_metrics` with one record or fewer fails immediately
with the insufficient-data `ValueError`, independently of the experiment
setup; with more than one record the length guard passes and the call is
exactly the binary/multiclass branch dispatch on the first row's width. -/
theorem roc_metrics_record_guard (setup : ExperimentSetup) (p : List (List Rat)) :
    (p.length ≤ 1 → ∀ setup₂ : ExperimentSetup,
      ClassifierExperimentBase.evaluate_roc_metrics setup₂ p = .error PyErr.valueError) ∧
    (1 < p.length → ClassifierExperimentBase.evaluate_roc_metrics setup p =
      if (p.headD []).length ≤ 2 then rocBinaryBranch setup p
      else rocMulticlassBranch setup p) := by
  constructor
  · intro h setup₂
    simp [ClassifierExperimentBase.evaluate_roc_metrics, h]
  · intro h
    simp only [ClassifierExperimentBase.evaluate_roc_metrics]
    rw [if_neg (by omega)]

/-- Witness for C6: an empty probability array fails, and a two-record
two-column array proceeds to the binary branch. -/
theorem roc_metrics_record_guard_witness :
    ClassifierExperimentBase.evaluate_roc_metrics setupRoc [] =
      .error PyErr.valueError ∧
    ClassifierExperimentBase.evaluate_roc_metrics setupRoc [[1, 0], [0, 1]] =
      rocBinaryBranch setupRoc [[1, 0], [0, 1]] :=
  ⟨(roc_metrics_record_guard setupRoc []).1 (by decide) setupRoc,
   ((roc_metrics_record_guard setupRoc [[1, 0], [0, 1]]).2 (by decide)).trans
     (if_pos (by decide))⟩

/-- C4: in the binary case (first-row width at most two, more than one
record), `evaluate_roc_metrics` returns exactly the ROC-AUC of column
index 1 of the probability matrix against the true test labels; any other
matrix with the same column 1 (whatever its column 0) yields the identical
result. -/
theorem roc_binary_uses_column_one (setup : ExperimentSetup) (p : List (List Rat))
    (c : List Rat) (hlen : 1 < p.length) (hw : (p.headD []).length ≤ 2)
    (hcol : columnIndex1 p = .ok c) :
    (ClassifierExperimentBase.evaluate_roc_metrics setup p =
      (roc_auc_score setup.test_data.labels c).map
        (fun r => [("roc_auc_score", PyVal.num r)])) ∧
    (∀ q : List (List Rat), 1 < q.length → (q.headD []).length ≤ 2 →
      columnIndex1 q = .ok c →
      ClassifierExperimentBase.evaluate_roc_metrics setup q =
        ClassifierExperimentBase.evaluate_roc_metrics setup p) := by
  have key : ∀ r : List (List Rat), 1 < r.length → (r.headD []).length ≤ 2 →
      columnIndex1 r = .ok c →
      ClassifierExperimentBase.evaluate_roc_metrics setup r =
        (roc_auc_score setup.test_data.labels c).map
          (fun x => [("roc_auc_score", PyVal.num x)]) := by
    intro r h1 h2 h3
    simp only [ClassifierExperimentBase.evaluate_roc_metrics]
    rw [if_neg (by omega), if_pos h2]
    simp only [rocBinaryBranch, h3]
    cases hs : roc_auc_score setup.test_data.labels c <;>
      simp [hs, Except.map, Except.bind, bind, pure, Except.pure]
  exact ⟨key p hlen hw hcol,
    fun q h1 h2 h3 => (key q h1 h2 h3).trans (key p hlen hw hcol).symm⟩

/-- Witness for C4: two concrete binary probability matrices differing only
in column 0 produce the same ROC-AUC result. -/
theorem roc_binary_uses_column_one_witness :
    (ClassifierExperimentBase.evaluate_roc_metrics setupRoc [[1, 0], [0, 1]] =
      (roc_auc_score setupRoc.test_data.labels [0, 1]).map
        (fun r => [("roc_auc_score", PyVal.num r)])) ∧
    (ClassifierExperimentBase.evaluate_roc_metrics setupRoc [[5, 0], [7, 1]] =
      ClassifierExperimentBase.evaluate_roc_metrics setupRoc [[1, 0], [0, 1]]) :=
  ⟨(roc_binary_uses_column_one setupRoc [[1, 0], [0, 1]] [0, 1]
      (by decide) (by decide) rfl).1,
   (roc_binary_uses_column_one setupRoc [[1, 0], [0, 1]] [0, 1]
      (by decide) (by decide) rfl).2 [[5, 0], [7, 1]] (by decide) (by decide) rfl⟩

/-- C3: in classifier `evaluate_predictions`, every registered metric whose
name lacks `"f1"` is scored on the selected predictions first, rescored on
the class probabilities if that raises `ValueError`, and omitted from the
returned mapping if the retry raises `ValueError` too — and as long as every
registered metric fails only with value-domain errors (and the averaged
calls of f1-like metrics succeed), the whole evaluation still returns a
mapping, so no per-metric domain failure aborts it. -/
theorem classifier_nonf1_metric_fallback (st : ExperimentState)
    (labels preds probs : PyVal) (n : String) (m : PyMetric)
    (hnd : (st.metric_dict.map Prod.fst).Nodup)
    (hmem : (n, m) ∈ st.metric_dict)
    (hn : strHasF1 n = false)
    (hben : ∀ e ∈ st.metric_dict, benignEntry labels preds probs e) :
    ∃ d, ClassifierExperimentBase.evaluate_predictions st labels preds probs false =
        .ok d ∧
      dlookup d n = Option.orElse (m.call labels preds).toOption
        (fun _ => (m.call labels probs).toOption) := by
  obtain ⟨pre, post, hsplit⟩ := List.append_of_mem hmem
  have heval : ClassifierExperimentBase.evaluate_predictions st labels preds probs false =
      runMetrics labels preds probs st.metric_dict [] := by
    simp [ClassifierExperimentBase.evaluate_predictions, selectEvaluationPrediction]
  rw [hsplit] at hnd hben
  have hnames := nodup_split_names pre post n m hnd
  have hpreW : n ∉ writtenKeys pre := notMem_writtenKeys_of_nonf1 pre n hn hnames.1
  have hpostW : n ∉ writtenKeys post := notMem_writtenKeys_of_nonf1 post n hn hnames.2
  obtain ⟨d₁, hpre⟩ := runMetrics_progress labels preds probs pre
    (fun e he => hben e (List.mem_append_left _ he)) []
  have hbpost : ∀ e ∈ post, benignEntry labels preds probs e :=
    fun e he => hben e (List.mem_append_right _ (List.mem_cons_of_mem _ he))
  have hd₁n : dlookup d₁ n = Option.none := by
    rw [runMetrics_frame labels preds probs pre [] d₁ n hpre hpreW]; rfl
  have hrun : runMetrics labels preds probs (pre ++ (n, m) :: post) [] =
      runMetrics labels preds probs ((n, m) :: post) d₁ := by
    rw [runMetrics_append, hpre]
  rw [heval, hsplit, hrun]
  simp only [runMetrics]
  have hbenm := hben (n, m) (List.mem_append_right _ (List.mem_cons_self _ _))
  simp only [benignEntry, hn, Bool.false_eq_true, if_false] at hbenm
  cases hc : m.call labels preds with
  | ok v =>
    have hstep : stepMetric labels preds probs (n, m) d₁ = .ok (dinsert d₁ n v) := by
      simp [stepMetric, hn, hc]
    rw [hstep]
    obtain ⟨d₂, hpost⟩ := runMetrics_progress labels preds probs post hbpost
      (dinsert d₁ n v)
    refine ⟨d₂, hpost, ?_⟩
    rw [runMetrics_frame labels preds probs post _ d₂ n hpost hpostW,
      dlookup_dinsert_self]
    simp [hc, Except.toOption, Option.orElse]
  | error er =>
    have her : er = PyErr.valueError := hbenm.1 er hc
    subst her
    cases hc2 : m.call labels probs with
    | ok v =>
      have hstep : stepMetric labels preds probs (n, m) d₁ = .ok (dinsert d₁ n v) := by
        simp [stepMetric, hn, hc, hc2]
      rw [hstep]
      obtain ⟨d₂, hpost⟩ := runMetrics_progress labels preds probs post hbpost
        (dinsert d₁ n v)
      refine ⟨d₂, hpost, ?_⟩
      rw [runMetrics_frame labels preds probs post _ d₂ n hpost hpostW,
        dlookup_dinsert_self]
      simp [hc, hc2, Except.toOption, Option.orElse]
    | error er2 =>
      have her2 : er2 = PyErr.valueError := hbenm.2 er2 hc2
      subst her2
      have hstep : stepMetric labels preds probs (n, m) d₁ = .ok d₁ := by
        simp [stepMetric, hn, hc, hc2]
      rw [hstep]
      obtain ⟨d₂, hpost⟩ := runMetrics_progress labels preds probs post hbpost d₁
      refine ⟨d₂, hpost, ?_⟩
      rw [runMetrics_frame labels preds probs post _ d₂ n hpost hpostW, hd₁n]
      simp [hc, hc2, Except.toOption, Option.orElse]

/-- Witness for C3: a probe metric that raises `ValueError` on the label
predictions and succeeds on the probabilities lands its probability-based
score in the returned mapping. -/
theorem classifier_nonf1_metric_fallback_witness :
    ∃ d, ClassifierExperimentBase.evaluate_predictions
        { experimentStateDefault with metric_dict := [("acc", mProbeFallback)] }
        PyVal.none (PyVal.ints [1]) (PyVal.mat [[1]]) false = .ok d ∧
      dlookup d "acc" = some (PyVal.str "fromprobs") := by
  obtain ⟨d, h1, h2⟩ := classifier_nonf1_metric_fallback
    { experimentStateDefault with metric_dict := [("acc", mProbeFallback)] }
    PyVal.none (PyVal.ints [1]) (PyVal.mat [[1]]) "acc" mProbeFallback
    (by decide) (List.mem_singleton.mpr rfl) (by decide)
    (by
      intro e he
      rw [List.mem_singleton] at he
      subst he
      simp [benignEntry, show strHasF1 "acc" = false from rfl, mProbeFallback])
  exact ⟨d, h1, by simpa [mProbeFallback, Except.toOption, Option.orElse] using h2⟩

/-- C7: in classifier `evaluate_predictions`, every registered metric whose
name contains `"f1"` contributes exactly its three averaged results, under
the keys obtained by appending `_macro`, `_micro` and `_weighted` to its
registered name, and contributes nothing under its unsuffixed name (assuming
the registry has no name aliasing one of these suffixed keys, and the calls
involved are benign so that the evaluation returns at all). -/
theorem classifier_f1_metric_variants (st : ExperimentState)
    (labels preds probs : PyVal) (n : String) (m : PyMetric)
    (hnd : (st.metric_dict.map Prod.fst).Nodup)
    (hmem : (n, m) ∈ st.metric_dict)
    (hn : strHasF1 n = true)
    (hben : ∀ e ∈ st.metric_dict, benignEntry labels preds probs e)
    (halias : ∀ n' ∈ st.metric_dict.map Prod.fst, ∀ s ∈ avgSuffixes, n' ++ s ≠ n) :
    ∃ d, ClassifierExperimentBase.evaluate_predictions st labels preds probs false =
        .ok d ∧
      dlookup d (n ++ "_macro") = (m.callAvg labels preds "macro").toOption ∧
      dlookup d (n ++ "_micro") = (m.callAvg labels preds "micro").toOption ∧
      dlookup d (n ++ "_weighted") = (m.callAvg labels preds "weighted").toOption ∧
      dlookup d n = Option.none := by
  obtain ⟨pre, post, hsplit⟩ := List.append_of_mem hmem
  have heval : ClassifierExperimentBase.evaluate_predictions st labels preds probs false =
      runMetrics labels preds probs st.metric_dict [] := by
    simp [ClassifierExperimentBase.evaluate_predictions, selectEvaluationPrediction]
  rw [hsplit] at hnd hben halias
  have hnamesEq : (pre ++ (n, m) :: post).map Prod.fst =
      pre.map Prod.fst ++ n :: post.map Prod.fst := by
    rw [List.map_append, List.map_cons]
  rw [hnamesEq] at halias
  have hnames := nodup_split_names pre post n m hnd
  have haliasPre : ∀ n' ∈ pre.map Prod.fst, ∀ s ∈ avgSuffixes, n' ++ s ≠ n :=
    fun n' hm s hs => halias n' (List.mem_append_left _ hm) s hs
  have haliasPost : ∀ n' ∈ post.map Prod.fst, ∀ s ∈ avgSuffixes, n' ++ s ≠ n :=
    fun n' hm s hs => halias n' (List.mem_append_right _ (List.mem_cons_of_mem _ hm)) s hs
  have hpreW : n ∉ writtenKeys pre :=
    notMem_writtenKeys_of_f1 pre n hn hnames.1 haliasPre
  have hpostW : n ∉ writtenKeys post :=
    notMem_writtenKeys_of_f1 post n hn hnames.2 haliasPost
  have hmacMem : "_macro" ∈ avgSuffixes := by simp [avgSuffixes]
  have hmicMem : "_micro" ∈ avgSuffixes := by simp [avgSuffixes]
  have hweiMem : "_weighted" ∈ avgSuffixes := by simp [avgSuffixes]
  have hpostWmac : (n ++ "_macro") ∉ writtenKeys post :=
    notMem_writtenKeys_suffixed post n "_macro" hn hmacMem hnames.2
  have hpostWmic : (n ++ "_micro") ∉ writtenKeys post :=
    notMem_writtenKeys_suffixed post n "_micro" hn hmicMem hnames.2
  have hpostWwei : (n ++ "_weighted") ∉ writtenKeys post :=
    notMem_writtenKeys_suffixed post n "_weighted" hn hweiMem hnames.2
  have hsne : ∀ s₁ s₂ : String, s₁ ∈ avgSuffixes → s₂ ∈ avgSuffixes → s₁ ≠ s₂ →
      n ++ s₁ ≠ n ++ s₂ :=
    fun s₁ s₂ hs₁ hs₂ hne h => hne (avgSuffix_append_inj n n s₁ s₂ hs₁ hs₂ h).2
  obtain ⟨d₁, hpre⟩ := runMetrics_progress labels preds probs pre
    (fun e he => hben e (List.mem_append_left _ he)) []
  have hbpost : ∀ e ∈ post, benignEntry labels preds probs e :=
    fun e he => hben e (List.mem_append_right _ (List.mem_cons_of_mem _ he))
  have hd₁n : dlookup d₁ n = Option.none := by
    rw [runMetrics_frame labels preds probs pre [] d₁ n hpre hpreW]; rfl
  have hrun : runMetrics labels preds probs (pre ++ (n, m) :: post) [] =
      runMetrics labels preds probs ((n, m) :: post) d₁ := by
    rw [runMetrics_append, hpre]
  rw [heval, hsplit, hrun]
  simp only [runMetrics]
  have hbenm := hben (n, m) (List.mem_append_right _ (List.mem_cons_self _ _))
  simp only [benignEntry, hn, if_true] at hbenm
  obtain ⟨⟨v1, h1⟩, ⟨v2, h2⟩, ⟨v3, h3⟩⟩ := hbenm
  have hstep : stepMetric labels preds probs (n, m) d₁ =
      .ok (dinsert (dinsert (dinsert d₁ (n ++ "_macro") v1) (n ++ "_micro") v2)
        (n ++ "_weighted") v3) := by
    simp [stepMetric, hn, h1, h2, h3]
  rw [hstep]
  obtain ⟨d₂, hpost⟩ := runMetrics_progress labels preds probs post hbpost
    (dinsert (dinsert (dinsert d₁ (n ++ "_macro") v1) (n ++ "_micro") v2)
      (n ++ "_weighted") v3)
  refine ⟨d₂, hpost, ?_, ?_, ?_, ?_⟩
  · rw [runMetrics_frame labels preds probs post _ d₂ _ hpost hpostWmac,
      dlookup_dinsert_ne _ _ _ _ (hsne "_weighted" "_macro" hweiMem hmacMem (by decide)),
      dlookup_dinsert_ne _ _ _ _ (hsne "_micro" "_macro" hmicMem hmacMem (by decide)),
      dlookup_dinsert_self, h1]
    rfl
  · rw [runMetrics_frame labels preds probs post _ d₂ _ hpost hpostWmic,
      dlookup_dinsert_ne _ _ _ _ (hsne "_weighted" "_micro" hweiMem hmicMem (by decide)),
      dlookup_dinsert_self, h2]
    rfl
  · rw [runMetrics_frame labels preds probs post _ d₂ _ hpost hpostWwei,
      dlookup_dinsert_self, h3]
    rfl
  · rw [runMetrics_frame labels preds probs post _ d₂ _ hpost hpostW,
      dlookup_dinsert_ne _ _ _ _ (append_avgSuffix_ne_self n "_weighted" hweiMem),
      dlookup_dinsert_ne _ _ _ _ (append_avgSuffix_ne_self n "_micro" hmicMem),
      dlookup_dinsert_ne _ _ _ _ (append_avgSuffix_ne_self n "_macro" hmacMem),
      hd₁n]

/-- Witness for C7: a probe metric registered as `f1` whose averaged call
returns the averaging mode shows the three suffixed entries and the absence
of the unsuffixed entry. -/
theorem classifier_f1_metric_variants_witness :
    ∃ d, ClassifierExperimentBase.evaluate_predictions
        { experimentStateDefault with metric_dict := [("f1", mProbeAvg)] }
        PyVal.none (PyVal.ints [1]) PyVal.none false = .ok d ∧
      dlookup d "f1_macro" = some (PyVal.str "macro") ∧
      dlookup d "f1_micro" = some (PyVal.str "micro") ∧
      dlookup d "f1_weighted" = some (PyVal.str "weighted") ∧
      dlookup d "f1" = Option.none := by
  obtain ⟨d, h1, h2, h3, h4, h5⟩ := classifier_f1_metric_variants
    { experimentStateDefault with metric_dict := [("f1", mProbeAvg)] }
    PyVal.none (PyVal.ints [1]) PyVal.none "f1" mProbeAvg
    (by decide) (List.mem_singleton.mpr rfl) (by decide)
    (by
      intro e he
      rw [List.mem_singleton] at he
      subst he
      simp [benignEntry, show strHasF1 "f1" = true from rfl, mProbeAvg])
    (by decide)
  exact ⟨d, h1, by simpa [mProbeAvg, Except.toOption] using h2,
    by simpa [mProbeAvg, Except.toOption] using h3,
    by simpa [mProbeAvg, Except.toOption] using h4, h5⟩
